import Mathlib

/-!
# Verification of the bond valuation engine (`bond.service.ts`)

Shallow embedding of the core financial computation service of the
bond-yield-calculator repository, together with proofs about the claims
of its specification.

Numbers are modelled by exact rationals (`ℚ`).  The source operates on
IEEE doubles; all algorithmic structure (branches, loop bounds, early
exits, rounding formulas) is translated verbatim, while arithmetic is
exact.  Two JavaScript-specific conventions are modelled explicitly:

* `Math.round x` is `⌊x + 1/2⌋` (ties toward positive infinity) — this is
  the semantics of JavaScript's `Math.round`, not round-half-away-from-zero;
* a `for (let t = 1; t <= bound; t++)` loop with a rational `bound` runs
  `⌊bound⌋` times (clamped at `0`).

`Math.pow` is modelled by `jsPow`, exact for integer exponents (the only
exponents any theorem below evaluates); for a non-integer exponent the
model returns the junk value `0`, and no statement in this file depends
on that branch.  Division by zero follows the `ℚ` convention `x / 0 = 0`.
Exceptions (`BadRequestException`) are modelled by `Except Unit`.
-/

deriving instance DecidableEq for Except

namespace BondCalc

/-- `Math.pow` on rationals: exact for integer exponents, junk (`0`) otherwise. -/
def jsPow (b e : ℚ) : ℚ :=
  if e.den = 1 then b ^ e.num else 0

/-- `Math.round`: nearest integer, ties toward positive infinity. -/
def jsRoundInt (x : ℚ) : ℤ :=
  ⌊x + 1 / 2⌋

/-- `BondService.round`: `Math.round (value * 10^decimals) / 10^decimals`. -/
def round (value : ℚ) (decimals : ℕ) : ℚ :=
  let factor : ℚ := 10 ^ decimals
  (jsRoundInt (value * factor) : ℚ) / factor

/-- Premium / Discount / Par classification (`PremiumOrDiscount` in `@bond/shared`). -/
inductive PremiumOrDiscount where
  | Premium
  | Discount
  | Par
deriving DecidableEq, Repr

/-- Coupon frequency enum of `CalculateBondDto`. -/
inductive CouponFrequency where
  | annual
  | semiAnnual
deriving DecidableEq, Repr

/-- Validated request payload (`CalculateBondDto`). -/
structure CalculateBondDto where
  faceValue : ℚ
  couponRate : ℚ
  marketPrice : ℚ
  yearsToMaturity : ℚ
  couponFrequency : CouponFrequency
deriving DecidableEq, Repr

/-- A calendar date, the abstract content of the JS `Date` values used by the
schedule generator (assuming a UTC environment, so that the local-time month
arithmetic of `setMonth` and the UTC rendering of `toISOString` agree). -/
structure SimpleDate where
  year : ℤ
  month : ℤ
  day : ℤ
deriving DecidableEq, Repr

/-- One row of the cash-flow schedule (`CashFlow` in `@bond/shared`). -/
structure CashFlow where
  period : ℕ
  paymentDate : SimpleDate
  couponPayment : ℚ
  principalPayment : ℚ
  totalPayment : ℚ
  cumulativeInterest : ℚ
  remainingPrincipal : ℚ
deriving DecidableEq, Repr

/-- Result record returned to the client (`BondResult` in `@bond/shared`). -/
structure BondResult where
  currentYield : ℚ
  ytm : ℚ
  totalInterest : ℚ
  premiumOrDiscount : PremiumOrDiscount
  cashFlowSchedule : List CashFlow
deriving DecidableEq, Repr

/-- Gregorian leap-year test, as implemented by JS `Date`. -/
def isLeapYear (y : ℤ) : Bool :=
  (y % 4 = 0 && y % 100 ≠ 0) || y % 400 = 0

/-- Number of days of a month (`month ∈ [1, 12]`). -/
def daysInMonth (y month : ℤ) : ℤ :=
  if month = 2 then (if isLeapYear y then 29 else 28)
  else if month = 4 ∨ month = 6 ∨ month = 9 ∨ month = 11 then 30
  else 31

/-- JS `Date.prototype.setMonth` semantics: advance a date by `k` calendar
months keeping the day-of-month; a day-of-month exceeding the length of the
resulting month overflows into the following month (it is *not* clamped). -/
def jsAddMonths (d : SimpleDate) (k : ℤ) : SimpleDate :=
  let t := d.month - 1 + k
  let y := d.year + Int.ediv t 12
  let mth := Int.emod t 12 + 1
  if daysInMonth y mth < d.day then
    (if mth = 12 then ⟨y + 1, 1, d.day - daysInMonth y mth⟩
     else ⟨y, mth + 1, d.day - daysInMonth y mth⟩)
  else ⟨y, mth, d.day⟩

/-- Modelled from the spec (§4.4): month advancement "with day-of-month clamped
to the last valid day of the resulting month when overflow occurs". -/
def specAddMonths (d : SimpleDate) (k : ℤ) : SimpleDate :=
  let t := d.month - 1 + k
  let y := d.year + Int.ediv t 12
  let mth := Int.emod t 12 + 1
  ⟨y, mth, min d.day (daysInMonth y mth)⟩

/-- The fixed reference date `new Date('2026-02-23')` hard-coded in
`generateCashFlowSchedule`. -/
def anchorDate : SimpleDate := ⟨2026, 2, 23⟩

/-- Modelled from the spec (§4.4): the payment date of period `p` for a
caller-supplied anchor date: the anchor advanced by
`round (monthsPerPeriod * p)` calendar months, day clamped on overflow. -/
def specSchedulePaymentDate (anchor : SimpleDate) (periodsPerYear : ℚ) (p : ℕ) : SimpleDate :=
  specAddMonths anchor (jsRoundInt (12 / periodsPerYear * p))

/-- `calculateCurrentYield`: annual coupon income over market price. -/
def calculateCurrentYield (faceValue couponRate marketPrice : ℚ) : ℚ :=
  let annualCoupon := couponRate / 100 * faceValue
  annualCoupon / marketPrice

/-- `determinePremiumOrDiscount`: three-way comparison of price and par. -/
def determinePremiumOrDiscount (marketPrice faceValue : ℚ) : PremiumOrDiscount :=
  if marketPrice > faceValue then .Premium
  else if marketPrice < faceValue then .Discount
  else .Par

/-- The body of the accumulation loop of `bondPriceAndDerivative`:
running price and derivative sums over coupon periods `t = 1 .. k`. -/
def couponSums (couponPayment r : ℚ) : ℕ → ℚ × ℚ
  | 0 => (0, 0)
  | k + 1 =>
    let p := couponSums couponPayment r k
    (p.1 + couponPayment / (1 + r) ^ (k + 1),
     p.2 - ((k : ℚ) + 1) * couponPayment / (1 + r) ^ (k + 2))

/-- `bondPriceAndDerivative`: theoretical bond price and its first derivative
with respect to the periodic rate `r`.  The coupon loop `for (t = 1; t <= totalPeriods)`
runs `⌊totalPeriods⌋` times; the face-value terms use `totalPeriods` itself as
exponent, via `Math.pow`. -/
def bondPriceAndDerivative (faceValue couponPayment r totalPeriods : ℚ) : ℚ × ℚ :=
  let s := couponSums couponPayment r (⌊totalPeriods⌋).toNat
  (s.1 + faceValue / jsPow (1 + r) totalPeriods,
   s.2 - totalPeriods * faceValue / jsPow (1 + r) (totalPeriods + 1))

/-- Convergence tolerance of the Newton-Raphson loop (`TOLERANCE = 1e-6`). -/
def TOLERANCE : ℚ := 1 / 1000000

/-- Initial guess of `calculateYTM`: the closed-form approximation formula,
converted to a per-period rate. -/
def initialGuess (faceValue couponPayment marketPrice totalPeriods periodsPerYear : ℚ) : ℚ :=
  ((couponPayment * periodsPerYear + (faceValue - marketPrice) / (totalPeriods / periodsPerYear)) /
      ((faceValue + marketPrice) / 2)) / periodsPerYear

/-- The Newton-Raphson `for` loop of `calculateYTM`, with explicit fuel
(`MAX_ITERATIONS`).  Early exits: tolerance met (`break`, keep `r`) and zero
derivative (`BadRequestException`).  After the update the iterate is reset to
`0.001` when it is `≤ -1` (the `!isFinite` disjunct of the guard cannot fire in
exact arithmetic).  Exhausted fuel returns the last iterate. -/
def newtonLoop (faceValue couponPayment marketPrice totalPeriods : ℚ) :
    ℕ → ℚ → Except Unit ℚ
  | 0, r => .ok r
  | fuel + 1, r =>
    let pd := bondPriceAndDerivative faceValue couponPayment r totalPeriods
    let diff := pd.1 - marketPrice
    if |diff| < TOLERANCE then .ok r
    else if pd.2 = 0 then .error ()
    else
      newtonLoop faceValue couponPayment marketPrice totalPeriods fuel
        (if r - diff / pd.2 ≤ -1 then 1 / 1000 else r - diff / pd.2)

/-- `calculateYTM` with the iteration cap as an explicit parameter. -/
def calculateYTMWithFuel (fuel : ℕ)
    (faceValue couponPayment marketPrice totalPeriods periodsPerYear : ℚ) : Except Unit ℚ :=
  if couponPayment = 0 ∧ faceValue = marketPrice then .ok 0
  else
    match newtonLoop faceValue couponPayment marketPrice totalPeriods fuel
        (initialGuess faceValue couponPayment marketPrice totalPeriods periodsPerYear) with
    | .ok r => .ok (r * periodsPerYear)
    | .error e => .error e

/-- `calculateYTM`: Newton-Raphson solver with `MAX_ITERATIONS = 1000`. -/
def calculateYTM (faceValue couponPayment marketPrice totalPeriods periodsPerYear : ℚ) :
    Except Unit ℚ :=
  calculateYTMWithFuel 1000 faceValue couponPayment marketPrice totalPeriods periodsPerYear

/-- One row constructed by the body of the schedule loop, for a given period
number and pre-update cumulative interest accumulator value. -/
def scheduleEntry (faceValue couponPayment totalPeriods monthsPerPeriod : ℚ)
    (period : ℕ) (cum : ℚ) : CashFlow :=
  let principalPayment : ℚ := if (period : ℚ) = totalPeriods then faceValue else 0
  { period := period
    paymentDate := jsAddMonths anchorDate (jsRoundInt (monthsPerPeriod * period))
    couponPayment := round couponPayment 2
    principalPayment := round principalPayment 2
    totalPayment := round (couponPayment + principalPayment) 2
    cumulativeInterest := round cum 2
    remainingPrincipal := if (period : ℚ) = totalPeriods then 0 else faceValue }

/-- The schedule loop: `count` remaining iterations, current `period`, current
cumulative-interest accumulator. -/
def scheduleFrom (faceValue couponPayment totalPeriods monthsPerPeriod : ℚ) :
    ℕ → ℕ → ℚ → List CashFlow
  | 0, _, _ => []
  | count + 1, period, cum =>
    scheduleEntry faceValue couponPayment totalPeriods monthsPerPeriod period
        (cum + couponPayment)
      :: scheduleFrom faceValue couponPayment totalPeriods monthsPerPeriod count
        (period + 1) (cum + couponPayment)

/-- `generateCashFlowSchedule`: the loop `for (period = 1; period <= totalPeriods)`
runs `⌊totalPeriods⌋` times, starting from period `1` with the accumulator
seeded at `0`. -/
def generateCashFlowSchedule (faceValue couponPayment totalPeriods periodsPerYear : ℚ) :
    List CashFlow :=
  scheduleFrom faceValue couponPayment totalPeriods (12 / periodsPerYear)
    (⌊totalPeriods⌋).toNat 1 0

/-- `'semi-annual' → 2 ; 'annual' → 1`. -/
def periodsPerYearOf (dto : CalculateBondDto) : ℚ :=
  if dto.couponFrequency = .semiAnnual then 2 else 1

/-- `totalPeriods = yearsToMaturity * periodsPerYear`. -/
def totalPeriodsOf (dto : CalculateBondDto) : ℚ :=
  dto.yearsToMaturity * periodsPerYearOf dto

/-- `couponPayment = (couponRate / 100 / periodsPerYear) * faceValue`. -/
def couponPaymentOf (dto : CalculateBondDto) : ℚ :=
  dto.couponRate / 100 / periodsPerYearOf dto * dto.faceValue

/-- `BondService.calculate`: the orchestrator. -/
def calculate (dto : CalculateBondDto) : Except Unit BondResult :=
  let periodsPerYear := periodsPerYearOf dto
  let totalPeriods := totalPeriodsOf dto
  let couponPayment := couponPaymentOf dto
  let currentYield := calculateCurrentYield dto.faceValue dto.couponRate dto.marketPrice
  match calculateYTM dto.faceValue couponPayment dto.marketPrice totalPeriods periodsPerYear with
  | .error e => .error e
  | .ok ytm =>
    let totalInterest := couponPayment * totalPeriods
    let premiumOrDiscount := determinePremiumOrDiscount dto.marketPrice dto.faceValue
    let cashFlowSchedule :=
      generateCashFlowSchedule dto.faceValue couponPayment totalPeriods periodsPerYear
    .ok
      { currentYield := round currentYield 6
        ytm := round ytm 6
        totalInterest := round totalInterest 2
        premiumOrDiscount := premiumOrDiscount
        cashFlowSchedule := cashFlowSchedule }

/-! ## Reference model written from the specification's words

These definitions follow the spec text (§4.2, §4.3, §4.6), not the source;
they exist to be compared with the source-derived definitions above. -/

/-- Modelled from the spec (§4.2): the closed-form sums
`price(r) = Σ_{t=1}^{n} C/(1+r)^t + F/(1+r)^n` and
`derivative(r) = Σ_{t=1}^{n} -t·C/(1+r)^{t+1} - n·F/(1+r)^{n+1}`. -/
def specPriceDeriv (faceValue couponPayment : ℚ) (totalPeriods : ℕ) (r : ℚ) : ℚ × ℚ :=
  ((∑ t in Finset.range totalPeriods, couponPayment / (1 + r) ^ (t + 1))
      + faceValue / (1 + r) ^ totalPeriods,
   (∑ t in Finset.range totalPeriods, -(((t : ℚ) + 1) * couponPayment / (1 + r) ^ (t + 2)))
      - (totalPeriods : ℚ) * faceValue / (1 + r) ^ (totalPeriods + 1))

/-- Outcome of one Newton-Raphson step in the spec's description. -/
inductive SpecStep where
  | done : ℚ → SpecStep
  | fail : SpecStep
  | next : ℚ → SpecStep

/-- Modelled from the spec (§4.3, step 3): one iteration — evaluate price and
derivative, accept the current rate when the residual is within `1e-6`, fail on
a zero derivative, otherwise update and reset to `0.001` when the updated rate
is non-finite (impossible in exact arithmetic) or `≤ -1`. -/
def specNRStep (faceValue couponPayment marketPrice : ℚ) (totalPeriods : ℕ) (r : ℚ) :
    SpecStep :=
  let pd := specPriceDeriv faceValue couponPayment totalPeriods r
  if |pd.1 - marketPrice| < 1 / 1000000 then .done r
  else if pd.2 = 0 then .fail
  else
    let rNew := r - (pd.1 - marketPrice) / pd.2
    .next (if rNew ≤ -1 then 1 / 1000 else rNew)

/-- Modelled from the spec (§4.3): iterate `specNRStep` a bounded number of
times; when the budget is exhausted the last computed rate is returned without
any non-convergence signal. -/
def specIterate (faceValue couponPayment marketPrice : ℚ) (totalPeriods : ℕ) :
    ℕ → ℚ → Except Unit ℚ
  | 0, r => .ok r
  | k + 1, r =>
    match specNRStep faceValue couponPayment marketPrice totalPeriods r with
    | .done r => .ok r
    | .fail => .error ()
    | .next r2 => specIterate faceValue couponPayment marketPrice totalPeriods k r2

/-- Modelled from the spec (§4.3, steps 2–4, the non-special-case path): start
from the approximation-formula guess converted to a periodic rate, run at most
1000 iterations, and annualize the final rate. -/
def specSolveYTM (faceValue couponPayment marketPrice : ℚ) (totalPeriods : ℕ)
    (periodsPerYear : ℚ) : Except Unit ℚ :=
  let r0 := ((couponPayment * periodsPerYear
        + (faceValue - marketPrice) / ((totalPeriods : ℚ) / periodsPerYear)) /
      ((faceValue + marketPrice) / 2)) / periodsPerYear
  match specIterate faceValue couponPayment marketPrice totalPeriods 1000 r0 with
  | .ok r => .ok (r * periodsPerYear)
  | .error e => .error e

/-- Modelled from the spec (§4.6): rounding to `decimals` places with the
round-half-away-from-zero rule. -/
def specRound (value : ℚ) (decimals : ℕ) : ℚ :=
  let factor : ℚ := 10 ^ decimals
  if value < 0 then -((⌊-value * factor + 1 / 2⌋ : ℤ) : ℚ) / factor
  else ((⌊value * factor + 1 / 2⌋ : ℤ) : ℚ) / factor

/-! ## Bridging lemmas -/

theorem jsPow_natCast (b : ℚ) (n : ℕ) : jsPow b (n : ℚ) = b ^ n := by
  unfold jsPow
  rw [if_pos (Rat.den_natCast n), Rat.num_natCast, zpow_natCast]

theorem jsPow_natCast_add_one (b : ℚ) (n : ℕ) : jsPow b ((n : ℚ) + 1) = b ^ (n + 1) := by
  have h : ((n : ℚ) + 1) = ((n + 1 : ℕ) : ℚ) := by push_cast; ring
  rw [h, jsPow_natCast]

theorem floor_natCast_toNat (n : ℕ) : (⌊(n : ℚ)⌋).toNat = n := by
  rw [Int.floor_natCast]
  exact Int.toNat_natCast n

theorem couponSums_fst (C r : ℚ) :
    ∀ k : ℕ, (couponSums C r k).1 = ∑ t in Finset.range k, C / (1 + r) ^ (t + 1) := by
  intro k
  induction k with
  | zero => simp [couponSums]
  | succ k ih => rw [Finset.sum_range_succ, ← ih]; rfl

theorem couponSums_snd (C r : ℚ) :
    ∀ k : ℕ, (couponSums C r k).2 =
      ∑ t in Finset.range k, -(((t : ℚ) + 1) * C / (1 + r) ^ (t + 2)) := by
  intro k
  induction k with
  | zero => simp [couponSums]
  | succ k ih =>
    rw [Finset.sum_range_succ, ← ih]
    show (couponSums C r k).2 - ((k : ℚ) + 1) * C / (1 + r) ^ (k + 2) = _
    ring

/-- The loop of `bondPriceAndDerivative` computes exactly the spec's
closed-form sums, for a natural number of periods. -/
theorem bondPriceAndDerivative_natCast (f C r : ℚ) (n : ℕ) :
    bondPriceAndDerivative f C r (n : ℚ) = specPriceDeriv f C n r := by
  unfold bondPriceAndDerivative specPriceDeriv
  rw [floor_natCast_toNat, jsPow_natCast, jsPow_natCast_add_one]
  show (_ , _) = (_ , _)
  rw [couponSums_fst, couponSums_snd]

set_option maxHeartbeats 1000000 in
/-- The source's Newton-Raphson loop agrees step by step with the spec's
iteration, for a natural number of periods. -/
theorem newtonLoop_eq_specIterate (f C P : ℚ) (n : ℕ) :
    ∀ (fuel : ℕ) (r : ℚ),
      newtonLoop f C P (n : ℚ) fuel r = specIterate f C P n fuel r := by
  intro fuel
  induction fuel with
  | zero => intro r; rfl
  | succ k ih =>
    intro r
    simp only [newtonLoop, specIterate, specNRStep, bondPriceAndDerivative_natCast, TOLERANCE]
    split_ifs with h1 h2 h3
    · rfl
    · rfl
    · exact ih _
    · exact ih _

/-- C1, main theorem.  For every valid non-special-case argument set,
`calculateYTM` coincides with the reference Newton-Raphson procedure
written from the spec's words: approximation-formula initial guess, at most
1000 iterations with tolerance `1e-6` on the price residual, update
`r ← r - (price - marketPrice)/derivative` with reset to `0.001` below `-1`,
returning the last rate annualized when the cap is exhausted. -/
theorem calculateYTM_matches_spec_newton (f C P m : ℚ) (n : ℕ)
    (hf : 0 < f) (hC : 0 ≤ C) (hP : 0 < P) (hn : 1 ≤ n) (hm : m = 1 ∨ m = 2)
    (hspecial : ¬(C = 0 ∧ f = P)) :
    calculateYTM f C P (n : ℚ) m = specSolveYTM f C P n m := by
  unfold calculateYTM calculateYTMWithFuel specSolveYTM initialGuess
  rw [if_neg hspecial, newtonLoop_eq_specIterate]

/-- C1, witness: a concrete valid argument set (an at-par coupon bond). -/
theorem calculateYTM_matches_spec_newton_witness :
    ((0 : ℚ) < 1000 ∧ (0 : ℚ) ≤ 50 ∧ (0 : ℚ) < 1000 ∧ 1 ≤ 10 ∧
        ((1 : ℚ) = 1 ∨ (1 : ℚ) = 2) ∧ ¬((50 : ℚ) = 0 ∧ (1000 : ℚ) = 1000)) ∧
      calculateYTM 1000 50 1000 ((10 : ℕ) : ℚ) 1 = specSolveYTM 1000 50 1000 10 1 :=
  ⟨⟨by norm_num, by norm_num, by norm_num, by norm_num, Or.inl rfl, by norm_num⟩,
    calculateYTM_matches_spec_newton 1000 50 1000 1 10 (by norm_num) (by norm_num)
      (by norm_num) (by norm_num) (Or.inl rfl) (by norm_num)⟩

/-- One unfolding step of the Newton-Raphson loop. -/
theorem newtonLoop_succ (f C P tp : ℚ) (k : ℕ) (r : ℚ) :
    newtonLoop f C P tp (k + 1) r =
      (if |(bondPriceAndDerivative f C r tp).1 - P| < TOLERANCE then .ok r
       else if (bondPriceAndDerivative f C r tp).2 = 0 then .error ()
       else newtonLoop f C P tp k
        (if r - ((bondPriceAndDerivative f C r tp).1 - P) / (bondPriceAndDerivative f C r tp).2
              ≤ -1
         then 1 / 1000
         else r - ((bondPriceAndDerivative f C r tp).1 - P) /
            (bondPriceAndDerivative f C r tp).2)) := rfl

/-- C7, main theorem.  A zero-coupon bond priced exactly at par yields
`ytm = 0` exactly, and it does so for every iteration budget — in particular
with a budget of zero iterations, so no Newton-Raphson iteration is needed. -/
theorem calculateYTM_zero_coupon_at_par (f C P n m : ℚ) (hC : C = 0) (hpar : f = P) :
    calculateYTM f C P n m = .ok 0 ∧
      ∀ fuel : ℕ, calculateYTMWithFuel fuel f C P n m = .ok 0 := by
  constructor
  · unfold calculateYTM calculateYTMWithFuel
    rw [if_pos ⟨hC, hpar⟩]
  · intro fuel
    unfold calculateYTMWithFuel
    rw [if_pos ⟨hC, hpar⟩]

/-- C7, witness: `calculateYTM 1000 0 1000 5 1` returns `0`; the fuel-zero
instantiation confirms no iteration is used. -/
theorem calculateYTM_zero_coupon_at_par_witness :
    (calculateYTM 1000 0 1000 5 1 = .ok 0 ∧
        ∀ fuel : ℕ, calculateYTMWithFuel fuel 1000 0 1000 5 1 = .ok 0) ∧
      calculateYTMWithFuel 0 1000 0 1000 5 1 = .ok 0 :=
  ⟨calculateYTM_zero_coupon_at_par 1000 0 1000 5 1 rfl rfl,
   (calculateYTM_zero_coupon_at_par 1000 0 1000 5 1 rfl rfl).2 0⟩

/-- The coupon part of the derivative accumulator is non-positive. -/
theorem couponSums_snd_nonpos (C r : ℚ) (hC : 0 ≤ C) (h1r : 0 < 1 + r) :
    ∀ k : ℕ, (couponSums C r k).2 ≤ 0 := by
  intro k
  induction k with
  | zero => exact le_refl 0
  | succ k ih =>
    show (couponSums C r k).2 - ((k : ℚ) + 1) * C / (1 + r) ^ (k + 2) ≤ 0
    have hterm : 0 ≤ ((k : ℚ) + 1) * C / (1 + r) ^ (k + 2) := by positivity
    linarith

/-- C10, main theorem.  Under the engine's preconditions and for every
periodic rate `r > -1`, the derivative computed by `bondPriceAndDerivative`
is strictly negative — in particular non-zero, so the zero-derivative failure
branch of `calculateYTM` cannot fire at such an iterate. -/
theorem bondDerivative_neg (f C r : ℚ) (n : ℕ)
    (hf : 0 < f) (hC : 0 ≤ C) (hn : 1 ≤ n) (hr : -1 < r) :
    (bondPriceAndDerivative f C r (n : ℚ)).2 < 0 ∧
      (bondPriceAndDerivative f C r (n : ℚ)).2 ≠ 0 := by
  have h1r : (0 : ℚ) < 1 + r := by linarith
  have hn' : (0 : ℚ) < (n : ℚ) := by exact_mod_cast Nat.lt_of_lt_of_le Nat.zero_lt_one hn
  have hneg : (bondPriceAndDerivative f C r (n : ℚ)).2 < 0 := by
    show (couponSums C r (⌊(n : ℚ)⌋).toNat).2 - (n : ℚ) * f / jsPow (1 + r) ((n : ℚ) + 1) < 0
    rw [floor_natCast_toNat, jsPow_natCast_add_one]
    have hface : 0 < (n : ℚ) * f / (1 + r) ^ (n + 1) := by positivity
    have hcoup := couponSums_snd_nonpos C r hC h1r n
    linarith
  exact ⟨hneg, ne_of_lt hneg⟩

/-- C10, witness: a concrete strictly negative derivative. -/
theorem bondDerivative_neg_witness :
    ((0 : ℚ) < 1000 ∧ (0 : ℚ) ≤ 50 ∧ 1 ≤ 10 ∧ (-1 : ℚ) < 1 / 20) ∧
      (bondPriceAndDerivative 1000 50 (1 / 20) ((10 : ℕ) : ℚ)).2 < 0 :=
  ⟨⟨by norm_num, by norm_num, by norm_num, by norm_num⟩,
   (bondDerivative_neg 1000 50 (1 / 20) 10 (by norm_num) (by norm_num) (by norm_num)
      (by norm_num)).1⟩

/-- Whether the Newton-Raphson loop stops via the tolerance check within the
given budget (mirrors `newtonLoop` step for step). -/
def newtonConverges (faceValue couponPayment marketPrice totalPeriods : ℚ) :
    ℕ → ℚ → Bool
  | 0, _ => false
  | fuel + 1, r =>
    let pd := bondPriceAndDerivative faceValue couponPayment r totalPeriods
    let diff := pd.1 - marketPrice
    if |diff| < TOLERANCE then true
    else if pd.2 = 0 then false
    else
      newtonConverges faceValue couponPayment marketPrice totalPeriods fuel
        (if r - diff / pd.2 ≤ -1 then 1 / 1000 else r - diff / pd.2)

/-- The solver converges: either the zero-coupon-at-par special case (where the
returned rate `0` reproduces the price exactly) or the loop meets tolerance. -/
def solverConverges (faceValue couponPayment marketPrice totalPeriods periodsPerYear : ℚ) :
    Bool :=
  if couponPayment = 0 ∧ faceValue = marketPrice then true
  else
    newtonConverges faceValue couponPayment marketPrice totalPeriods 1000
      (initialGuess faceValue couponPayment marketPrice totalPeriods periodsPerYear)

/-- One unfolding step of `newtonConverges`. -/
theorem newtonConverges_succ (f C P tp : ℚ) (k : ℕ) (r : ℚ) :
    newtonConverges f C P tp (k + 1) r =
      (if |(bondPriceAndDerivative f C r tp).1 - P| < TOLERANCE then true
       else if (bondPriceAndDerivative f C r tp).2 = 0 then false
       else newtonConverges f C P tp k
        (if r - ((bondPriceAndDerivative f C r tp).1 - P) / (bondPriceAndDerivative f C r tp).2
              ≤ -1
         then 1 / 1000
         else r - ((bondPriceAndDerivative f C r tp).1 - P) /
            (bondPriceAndDerivative f C r tp).2)) := rfl

/-- When the loop stops via the tolerance check, the rate it returns has a
price residual strictly below the tolerance. -/
theorem newtonLoop_converged_residual (f C P tp : ℚ) :
    ∀ (fuel : ℕ) (r r' : ℚ),
      newtonConverges f C P tp fuel r = true →
      newtonLoop f C P tp fuel r = .ok r' →
      |(bondPriceAndDerivative f C r' tp).1 - P| < TOLERANCE := by
  intro fuel
  induction fuel with
  | zero =>
    intro r r' hcv _
    exact absurd hcv (by simp [newtonConverges])
  | succ k ih =>
    intro r r' hcv hok
    rw [newtonConverges_succ] at hcv
    rw [newtonLoop_succ] at hok
    by_cases h1 : |(bondPriceAndDerivative f C r tp).1 - P| < TOLERANCE
    · rw [if_pos h1] at hok
      obtain rfl : r = r' := by simpa using hok
      exact h1
    · rw [if_neg h1] at hcv hok
      by_cases h2 : (bondPriceAndDerivative f C r tp).2 = 0
      · rw [if_pos h2] at hcv
        exact absurd hcv (by simp)
      · rw [if_neg h2] at hcv hok
        exact ih _ _ hcv hok

/-- C2, main theorem.  On every valid input on which the solver converges,
discounting the cash flows at the returned periodic rate (the annualized
result divided by `periodsPerYear`) reproduces `marketPrice` within `1e-6`. -/
theorem ytm_roundtrip_price (f C P m : ℚ) (n : ℕ) (hn : 1 ≤ n) (hm : m = 1 ∨ m = 2)
    (hconv : solverConverges f C P (n : ℚ) m = true) (y : ℚ)
    (hy : calculateYTM f C P (n : ℚ) m = .ok y) :
    |(bondPriceAndDerivative f C (y / m) (n : ℚ)).1 - P| < 1 / 1000000 := by
  have hm0 : m ≠ 0 := by rcases hm with h | h <;> rw [h] <;> norm_num
  show |(bondPriceAndDerivative f C (y / m) (n : ℚ)).1 - P| < TOLERANCE
  unfold calculateYTM calculateYTMWithFuel at hy
  by_cases hsp : C = 0 ∧ f = P
  · rw [if_pos hsp] at hy
    obtain ⟨hC0, hfP⟩ := hsp
    obtain rfl : (0 : ℚ) = y := by simpa using hy
    rw [zero_div, bondPriceAndDerivative_natCast, hC0]
    have hprice : (specPriceDeriv f 0 n 0).1 = f := by
      unfold specPriceDeriv
      simp
    rw [hprice, hfP]
    simp [TOLERANCE]
  · rw [if_neg hsp] at hy
    unfold solverConverges at hconv
    rw [if_neg hsp] at hconv
    cases hloop : newtonLoop f C P (n : ℚ) 1000 (initialGuess f C P (n : ℚ) m) with
    | error e => rw [hloop] at hy; cases hy
    | ok r =>
      rw [hloop] at hy
      obtain rfl : r * m = y := by simpa using hy
      rw [mul_div_assoc, div_self hm0, mul_one]
      exact newtonLoop_converged_residual f C P (n : ℚ) 1000 _ r hconv hloop

/-- C2, witness: the at-par coupon bond converges (at the initial guess) and
its returned rate reprices the bond with zero residual. -/
theorem ytm_roundtrip_price_witness :
    ((1 : ℕ) ≤ 10 ∧ ((1 : ℚ) = 1 ∨ (1 : ℚ) = 2) ∧
        solverConverges 1000 50 1000 ((10 : ℕ) : ℚ) 1 = true ∧
        calculateYTM 1000 50 1000 ((10 : ℕ) : ℚ) 1 = .ok (1 / 20)) ∧
      |(bondPriceAndDerivative 1000 50 (1 / 20 / 1) ((10 : ℕ) : ℚ)).1 - 1000| < 1 / 1000000 := by
  have h1 : solverConverges 1000 50 1000 ((10 : ℕ) : ℚ) 1 = true := by
    with_unfolding_all decide
  have h2 : calculateYTM 1000 50 1000 ((10 : ℕ) : ℚ) 1 = .ok (1 / 20) := by
    with_unfolding_all decide
  exact ⟨⟨by norm_num, Or.inl rfl, h1, h2⟩,
    ytm_roundtrip_price 1000 50 1000 1 10 (by norm_num) (Or.inl rfl) h1 (1 / 20) h2⟩

/-- Whether the Newton-Raphson loop hits an exactly-zero derivative before
meeting tolerance or exhausting the budget (mirrors `newtonLoop` step for
step). -/
def hitsZeroDeriv (faceValue couponPayment marketPrice totalPeriods : ℚ) :
    ℕ → ℚ → Bool
  | 0, _ => false
  | fuel + 1, r =>
    let pd := bondPriceAndDerivative faceValue couponPayment r totalPeriods
    let diff := pd.1 - marketPrice
    if |diff| < TOLERANCE then false
    else if pd.2 = 0 then true
    else
      hitsZeroDeriv faceValue couponPayment marketPrice totalPeriods fuel
        (if r - diff / pd.2 ≤ -1 then 1 / 1000 else r - diff / pd.2)

/-- The derivative evaluates to exactly zero during the solver run for the
given request (the zero-coupon-at-par special case never iterates). -/
def solverHitsZeroDerivative (dto : CalculateBondDto) : Bool :=
  if couponPaymentOf dto = 0 ∧ dto.faceValue = dto.marketPrice then false
  else
    hitsZeroDeriv dto.faceValue (couponPaymentOf dto) dto.marketPrice (totalPeriodsOf dto) 1000
      (initialGuess dto.faceValue (couponPaymentOf dto) dto.marketPrice (totalPeriodsOf dto)
        (periodsPerYearOf dto))

/-- One unfolding step of `hitsZeroDeriv`. -/
theorem hitsZeroDeriv_succ (f C P tp : ℚ) (k : ℕ) (r : ℚ) :
    hitsZeroDeriv f C P tp (k + 1) r =
      (if |(bondPriceAndDerivative f C r tp).1 - P| < TOLERANCE then false
       else if (bondPriceAndDerivative f C r tp).2 = 0 then true
       else hitsZeroDeriv f C P tp k
        (if r - ((bondPriceAndDerivative f C r tp).1 - P) / (bondPriceAndDerivative f C r tp).2
              ≤ -1
         then 1 / 1000
         else r - ((bondPriceAndDerivative f C r tp).1 - P) /
            (bondPriceAndDerivative f C r tp).2)) := rfl

/-- The loop fails exactly when it hits a zero derivative. -/
theorem newtonLoop_error_iff (f C P tp : ℚ) :
    ∀ (fuel : ℕ) (r : ℚ),
      newtonLoop f C P tp fuel r = .error () ↔ hitsZeroDeriv f C P tp fuel r = true := by
  intro fuel
  induction fuel with
  | zero =>
    intro r
    constructor
    · intro h; cases h
    · intro h; exact absurd h (by simp [hitsZeroDeriv])
  | succ k ih =>
    intro r
    rw [newtonLoop_succ, hitsZeroDeriv_succ]
    by_cases h1 : |(bondPriceAndDerivative f C r tp).1 - P| < TOLERANCE
    · rw [if_pos h1, if_pos h1]
      constructor
      · intro h; cases h
      · intro h; exact absurd h (by simp)
    · rw [if_neg h1, if_neg h1]
      by_cases h2 : (bondPriceAndDerivative f C r tp).2 = 0
      · rw [if_pos h2, if_pos h2]
        exact ⟨fun _ => rfl, fun _ => rfl⟩
      · rw [if_neg h2, if_neg h2]
        exact ih _

/-- C4, main theorem.  `calculate` fails exactly when the solver's derivative
evaluates to exactly zero during a Newton-Raphson iteration, and this is the
only failure the engine signals: for every other input it returns a
`BondResult` without error. -/
theorem calculate_error_iff_zero_derivative (dto : CalculateBondDto) :
    calculate dto = .error () ↔ solverHitsZeroDerivative dto = true := by
  unfold calculate solverHitsZeroDerivative calculateYTM calculateYTMWithFuel
  dsimp only
  by_cases hsp : couponPaymentOf dto = 0 ∧ dto.faceValue = dto.marketPrice
  · rw [if_pos hsp, if_pos hsp]
    constructor
    · intro h; cases h
    · intro h; exact absurd h (by simp)
  · rw [if_neg hsp, if_neg hsp]
    cases hloop : newtonLoop dto.faceValue (couponPaymentOf dto) dto.marketPrice
        (totalPeriodsOf dto) 1000
        (initialGuess dto.faceValue (couponPaymentOf dto) dto.marketPrice (totalPeriodsOf dto)
          (periodsPerYearOf dto)) with
    | error e =>
      cases e
      constructor
      · intro _
        exact (newtonLoop_error_iff dto.faceValue (couponPaymentOf dto) dto.marketPrice
          (totalPeriodsOf dto) 1000 _).mp hloop
      · intro _; rfl
    | ok r =>
      constructor
      · intro h; cases h
      · intro h
        rw [(newtonLoop_error_iff dto.faceValue (couponPaymentOf dto) dto.marketPrice
          (totalPeriodsOf dto) 1000 _).mpr h] at hloop
        cases hloop

/-! ## Closed form of the schedule generator -/

theorem scheduleFrom_eq_map (f C n mpp : ℚ) :
    ∀ (count start : ℕ) (cum : ℚ),
      scheduleFrom f C n mpp count start cum =
        (List.range count).map
          (fun i => scheduleEntry f C n mpp (start + i) (cum + C * ((i : ℚ) + 1))) := by
  intro count
  induction count with
  | zero => intro start cum; rfl
  | succ k ih =>
    intro start cum
    rw [List.range_succ_eq_map, List.map_cons, List.map_map]
    show scheduleEntry f C n mpp start (cum + C) :: scheduleFrom f C n mpp k (start + 1) (cum + C)
        = scheduleEntry f C n mpp (start + 0) (cum + C * ((Nat.cast 0 : ℚ) + 1)) :: _
    congr 1
    · norm_num
    · rw [ih]
      apply List.map_congr_left
      intro a _
      show scheduleEntry f C n mpp (start + 1 + a) (cum + C + C * ((a : ℚ) + 1))
          = scheduleEntry f C n mpp (start + (a + 1)) (cum + C * (((a + 1 : ℕ) : ℚ) + 1))
      have h1 : start + 1 + a = start + (a + 1) := by omega
      have h2 : cum + C + C * ((a : ℚ) + 1) = cum + C * (((a + 1 : ℕ) : ℚ) + 1) := by
        push_cast
        ring
      rw [h1, h2]

theorem generateCashFlowSchedule_eq_map (f C n m : ℚ) :
    generateCashFlowSchedule f C n m =
      (List.range (⌊n⌋).toNat).map
        (fun i => scheduleEntry f C n (12 / m) (1 + i) (C * ((i : ℚ) + 1))) := by
  unfold generateCashFlowSchedule
  rw [scheduleFrom_eq_map]
  apply List.map_congr_left
  intro a _
  have h : (0 : ℚ) + C * ((a : ℚ) + 1) = C * ((a : ℚ) + 1) := by ring
  rw [h]

theorem generateCashFlowSchedule_length (f C n m : ℚ) :
    (generateCashFlowSchedule f C n m).length = (⌊n⌋).toNat := by
  rw [generateCashFlowSchedule_eq_map, List.length_map, List.length_range]

theorem generateCashFlowSchedule_get (f C n m : ℚ) (i : ℕ)
    (h : i < (generateCashFlowSchedule f C n m).length) :
    (generateCashFlowSchedule f C n m).get ⟨i, h⟩ =
      scheduleEntry f C n (12 / m) (1 + i) (C * ((i : ℚ) + 1)) := by
  have hlen := generateCashFlowSchedule_length f C n m
  have hi : i < (⌊n⌋).toNat := hlen ▸ h
  rw [List.get_of_eq (generateCashFlowSchedule_eq_map f C n m), List.get_map]
  simp [List.get_range]

/-- Inversion of a successful `calculate` run: the solver returned some rate
and the result record is assembled from the rounded sub-results. -/
theorem calculate_ok_inv (dto : CalculateBondDto) (res : BondResult)
    (h : calculate dto = .ok res) :
    ∃ y,
      calculateYTM dto.faceValue (couponPaymentOf dto) dto.marketPrice (totalPeriodsOf dto)
          (periodsPerYearOf dto) = .ok y ∧
      res =
        { currentYield :=
            round (calculateCurrentYield dto.faceValue dto.couponRate dto.marketPrice) 6
          ytm := round y 6
          totalInterest := round (couponPaymentOf dto * totalPeriodsOf dto) 2
          premiumOrDiscount := determinePremiumOrDiscount dto.marketPrice dto.faceValue
          cashFlowSchedule :=
            generateCashFlowSchedule dto.faceValue (couponPaymentOf dto) (totalPeriodsOf dto)
              (periodsPerYearOf dto) } := by
  unfold calculate at h
  dsimp only at h
  cases hy : calculateYTM dto.faceValue (couponPaymentOf dto) dto.marketPrice
      (totalPeriodsOf dto) (periodsPerYearOf dto) with
  | error e => rw [hy] at h; cases h
  | ok y =>
    rw [hy] at h
    exact ⟨y, rfl, by simpa using h.symm⟩

/-- Concrete request used by several witnesses: a zero-coupon two-year annual
bond priced at par.  The solver takes its special-case path, so the whole
pipeline evaluates exactly and cheaply. -/
def witnessDto : CalculateBondDto := ⟨1000, 0, 1000, 2, .annual⟩

/-- The result record that `calculate witnessDto` evaluates to. -/
def witnessRes : BondResult :=
  { currentYield := 0
    ytm := 0
    totalInterest := 0
    premiumOrDiscount := .Par
    cashFlowSchedule :=
      [⟨1, ⟨2027, 2, 23⟩, 0, 0, 0, 0, 1000⟩,
       ⟨2, ⟨2028, 2, 23⟩, 0, 1000, 1000, 0, 0⟩] }

set_option maxRecDepth 1000000 in
/-- C5, counterexample.  For the valid input `faceValue = 1000`,
`couponRate = 0`, `marketPrice = 1000`, `yearsToMaturity = 8.2`,
`couponFrequency = annual`, the schedule returned by `calculate` has length
`8`, not `totalPeriods = yearsToMaturity * periodsPerYear = 8.2`. -/
theorem calculate_schedule_length_counterexample :
    (calculate ⟨1000, 0, 1000, 41 / 5, .annual⟩).map
        (fun res => (res.cashFlowSchedule.length : ℚ)) = .ok 8 ∧
      (8 : ℚ) ≠ 41 / 5 * 1 := by
  constructor
  · with_unfolding_all decide
  · norm_num

/-- C5, amended theorem.  The schedule returned by a successful `calculate`
run has length `⌊yearsToMaturity * periodsPerYear⌋` (the `toNat` clamp only
matters for negative products, which valid inputs exclude), and its period
numbers are 1-indexed and strictly increasing: entry `i` has period `i + 1`. -/
theorem calculate_schedule_length_floor (dto : CalculateBondDto) (res : BondResult)
    (h : calculate dto = .ok res) :
    res.cashFlowSchedule.length = (⌊totalPeriodsOf dto⌋).toNat ∧
      ∀ i (hi : i < res.cashFlowSchedule.length),
        (res.cashFlowSchedule.get ⟨i, hi⟩).period = i + 1 := by
  obtain ⟨y, hy, rfl⟩ := calculate_ok_inv dto res h
  refine ⟨generateCashFlowSchedule_length _ _ _ _, ?_⟩
  intro i hi
  rw [generateCashFlowSchedule_get]
  show 1 + i = i + 1
  omega

set_option maxRecDepth 1000000 in
/-- C5, witness: a concrete successful run with schedule length `⌊2⌋ = 2`. -/
theorem calculate_schedule_length_floor_witness :
    calculate witnessDto = .ok witnessRes ∧
      (witnessRes.cashFlowSchedule.length = (⌊totalPeriodsOf witnessDto⌋).toNat ∧
        ∀ i (hi : i < witnessRes.cashFlowSchedule.length),
          (witnessRes.cashFlowSchedule.get ⟨i, hi⟩).period = i + 1) := by
  have h : calculate witnessDto = .ok witnessRes := by with_unfolding_all decide
  exact ⟨h, calculate_schedule_length_floor witnessDto witnessRes h⟩

/-- `round 0 d = 0`. -/
theorem round_zero (d : ℕ) : round 0 d = 0 := by
  unfold round jsRoundInt
  dsimp only
  have h : ((0 : ℚ) * 10 ^ d + 1 / 2) = 1 / 2 := by ring
  rw [h]
  have h2 : ⌊(1 / 2 : ℚ)⌋ = 0 := by
    rw [Int.floor_eq_zero_iff]
    constructor <;> norm_num
  rw [h2]
  norm_num

set_option maxRecDepth 1000000 in
/-- C6, counterexample.  For `faceValue = 0.001` (a positive real, as the
preconditions allow) and a one-period schedule, the final period's
`principalPayment` is the rounded value `0`: it is neither equal to
`faceValue` nor strictly positive, because the generator emits
`round(principalPayment, 2)`, not the exact `faceValue`. -/
theorem schedule_principal_counterexample :
    (generateCashFlowSchedule (1 / 1000) 0 1 1).map (fun cf => cf.principalPayment) = [0] ∧
      ¬((0 : ℚ) = 1 / 1000) ∧ ¬((0 : ℚ) > 0) := by
  refine ⟨?_, by norm_num, by norm_num⟩
  with_unfolding_all decide

/-- C6, amended theorem.  In a schedule with a positive integer period count:
`principalPayment` equals `round(faceValue, 2)` in the final period and `0`
elsewhere — so it is strictly positive exactly in the final period whenever
`round(faceValue, 2) > 0` (e.g. for any `faceValue ≥ 0.005`) — and
`remainingPrincipal` is `0` exactly in the final period and the exact
`faceValue` elsewhere. -/
theorem schedule_principal_remaining (f C m : ℚ) (k : ℕ) (hk : 1 ≤ k) (hf : 0 < f)
    (hfr : 0 < round f 2) :
    (generateCashFlowSchedule f C (k : ℚ) m).length = k ∧
      ∀ i (hi : i < (generateCashFlowSchedule f C (k : ℚ) m).length),
        ((generateCashFlowSchedule f C (k : ℚ) m).get ⟨i, hi⟩).principalPayment
            = (if i + 1 = k then round f 2 else 0) ∧
        (0 < ((generateCashFlowSchedule f C (k : ℚ) m).get ⟨i, hi⟩).principalPayment
            ↔ i + 1 = k) ∧
        ((generateCashFlowSchedule f C (k : ℚ) m).get ⟨i, hi⟩).remainingPrincipal
            = (if i + 1 = k then 0 else f) ∧
        (((generateCashFlowSchedule f C (k : ℚ) m).get ⟨i, hi⟩).remainingPrincipal = 0
            ↔ i + 1 = k) := by
  have hlen : (generateCashFlowSchedule f C (k : ℚ) m).length = k := by
    rw [generateCashFlowSchedule_length, floor_natCast_toNat]
  refine ⟨hlen, ?_⟩
  intro i hi
  rw [generateCashFlowSchedule_get]
  have hcond : (((1 + i : ℕ) : ℚ) = (k : ℚ)) ↔ i + 1 = k := by
    rw [Nat.cast_inj]
    omega
  unfold scheduleEntry
  dsimp only
  by_cases hfin : i + 1 = k
  · rw [if_pos (hcond.mpr hfin), if_pos hfin, if_pos (hcond.mpr hfin), if_pos hfin]
    refine ⟨rfl, ⟨fun _ => hfin, fun _ => hfr⟩, rfl, ⟨fun _ => hfin, fun _ => rfl⟩⟩
  · rw [if_neg (fun hq => hfin (hcond.mp hq)), if_neg hfin,
      if_neg (fun hq => hfin (hcond.mp hq)), if_neg hfin]
    refine ⟨round_zero 2, ?_, rfl, ?_⟩
    · rw [round_zero 2]
      exact ⟨fun hlt => absurd hlt (by norm_num), fun hq => absurd hq hfin⟩
    · exact ⟨fun hq => absurd hq (by linarith), fun hq => absurd hq hfin⟩

set_option maxRecDepth 1000000 in
/-- C6, witness: the repository's own test schedule (`1000, 50, 4, 1`). -/
theorem schedule_principal_remaining_witness :
    ((1 : ℕ) ≤ 4 ∧ (0 : ℚ) < 1000 ∧ 0 < round 1000 2) ∧
      ((generateCashFlowSchedule 1000 50 ((4 : ℕ) : ℚ) 1).length = 4 ∧
        ∀ i (hi : i < (generateCashFlowSchedule 1000 50 ((4 : ℕ) : ℚ) 1).length),
          ((generateCashFlowSchedule 1000 50 ((4 : ℕ) : ℚ) 1).get ⟨i, hi⟩).principalPayment
              = (if i + 1 = 4 then round 1000 2 else 0) ∧
          (0 < ((generateCashFlowSchedule 1000 50 ((4 : ℕ) : ℚ) 1).get ⟨i, hi⟩).principalPayment
              ↔ i + 1 = 4) ∧
          ((generateCashFlowSchedule 1000 50 ((4 : ℕ) : ℚ) 1).get ⟨i, hi⟩).remainingPrincipal
              = (if i + 1 = 4 then 0 else 1000) ∧
          (((generateCashFlowSchedule 1000 50 ((4 : ℕ) : ℚ) 1).get ⟨i, hi⟩).remainingPrincipal = 0
              ↔ i + 1 = 4)) := by
  have hr : (0 : ℚ) < round 1000 2 := by with_unfolding_all decide
  exact ⟨⟨by norm_num, by norm_num, hr⟩,
    schedule_principal_remaining 1000 50 1 4 (by norm_num) (by norm_num) hr⟩

/-- Every month has at least 28 days. -/
theorem daysInMonth_ge (y month : ℤ) : 28 ≤ daysInMonth y month := by
  unfold daysInMonth
  split_ifs <;> norm_num

/-- For the hard-coded anchor (day of month 23), JS month-overflow semantics
and the spec's clamping semantics agree: the day never exceeds the target
month's length, so neither overflow nor clamping ever fires. -/
theorem jsAddMonths_anchorDate_eq_spec (k : ℤ) :
    jsAddMonths anchorDate k = specAddMonths anchorDate k := by
  unfold jsAddMonths specAddMonths anchorDate
  dsimp only
  have h28 := daysInMonth_ge (2026 + Int.ediv (2 - 1 + k) 12) (Int.emod (2 - 1 + k) 12 + 1)
  rw [if_neg (by linarith : ¬daysInMonth (2026 + Int.ediv (2 - 1 + k) 12)
      (Int.emod (2 - 1 + k) 12 + 1) < 23)]
  have hmin : min (23 : ℤ)
      (daysInMonth (2026 + Int.ediv (2 - 1 + k) 12) (Int.emod (2 - 1 + k) 12 + 1)) = 23 :=
    min_eq_left (by linarith)
  rw [hmin]

set_option maxRecDepth 1000000 in
/-- C9, counterexample.  The generator takes no anchor-date argument: it uses
the fixed date `2026-02-23`.  For the anchor `2026-01-01` (any date other than
the hard-coded one) the claimed formula predicts `2027-01-01` for period 1 of
an annual one-period schedule, while the generated entry carries `2027-02-23`,
refuting the universally-quantified claim over anchor dates. -/
theorem schedule_anchor_counterexample :
    (generateCashFlowSchedule 1000 50 1 1).map (fun cf => cf.paymentDate) = [⟨2027, 2, 23⟩] ∧
      specSchedulePaymentDate ⟨2026, 1, 1⟩ 1 1 = ⟨2027, 1, 1⟩ ∧
      (⟨2027, 2, 23⟩ : SimpleDate) ≠ ⟨2027, 1, 1⟩ := by
  refine ⟨?_, ?_, by decide⟩ <;> with_unfolding_all decide

/-- C9, amended theorem.  The anchor date is the fixed constant `2026-02-23`
(not caller-supplied); every generated entry's payment date is that anchor
advanced by `round(monthsPerPeriod * period)` calendar months, and — because
the anchor's day of month, 23, fits in every month — this coincides with the
spec's clamped-advancement formula evaluated at the fixed anchor. -/
theorem schedule_payment_dates_fixed_anchor (f C m : ℚ) (k : ℕ)
    (hm : m = 1 ∨ m = 2) (hk : 1 ≤ k) :
    ∀ i (hi : i < (generateCashFlowSchedule f C (k : ℚ) m).length),
      ((generateCashFlowSchedule f C (k : ℚ) m).get ⟨i, hi⟩).paymentDate
          = jsAddMonths anchorDate (jsRoundInt (12 / m * ((i : ℚ) + 1))) ∧
      ((generateCashFlowSchedule f C (k : ℚ) m).get ⟨i, hi⟩).paymentDate
          = specSchedulePaymentDate anchorDate m (i + 1) := by
  intro i hi
  rw [generateCashFlowSchedule_get]
  have hcast : (((1 + i : ℕ)) : ℚ) = (i : ℚ) + 1 := by push_cast; ring
  constructor
  · show jsAddMonths anchorDate (jsRoundInt (12 / m * ((1 + i : ℕ) : ℚ))) = _
    rw [hcast]
  · show jsAddMonths anchorDate (jsRoundInt (12 / m * ((1 + i : ℕ) : ℚ))) = _
    unfold specSchedulePaymentDate
    rw [jsAddMonths_anchorDate_eq_spec]
    have hcast2 : (((i + 1 : ℕ)) : ℚ) = ((1 + i : ℕ) : ℚ) := by push_cast; ring
    rw [hcast2]

set_option maxRecDepth 1000000 in
/-- C9, witness: a two-period semi-annual schedule. -/
theorem schedule_payment_dates_fixed_anchor_witness :
    (((2 : ℚ) = 1 ∨ (2 : ℚ) = 2) ∧ (1 : ℕ) ≤ 2) ∧
      ∀ i (hi : i < (generateCashFlowSchedule 1000 25 ((2 : ℕ) : ℚ) 2).length),
        ((generateCashFlowSchedule 1000 25 ((2 : ℕ) : ℚ) 2).get ⟨i, hi⟩).paymentDate
            = jsAddMonths anchorDate (jsRoundInt (12 / 2 * ((i : ℚ) + 1))) ∧
        ((generateCashFlowSchedule 1000 25 ((2 : ℕ) : ℚ) 2).get ⟨i, hi⟩).paymentDate
            = specSchedulePaymentDate anchorDate 2 (i + 1) :=
  ⟨⟨Or.inr rfl, by norm_num⟩,
    schedule_payment_dates_fixed_anchor 1000 25 2 2 (Or.inr rfl) (by norm_num)⟩

/-- On non-negative values the engine's `Math.round`-based rounding coincides
with the spec's round-half-away-from-zero rule; they differ only at negative
ties. -/
theorem round_eq_specRound_of_nonneg (x : ℚ) (hx : 0 ≤ x) (d : ℕ) :
    round x d = specRound x d := by
  unfold round specRound jsRoundInt
  dsimp only
  rw [if_neg (not_lt.mpr hx)]

set_option maxRecDepth 1000000 in
/-- C3, counterexample.  Two refutations at concrete inputs: (1) `calculate`
on the valid request `faceValue = marketPrice = 0.001, couponRate = 0,
yearsToMaturity = 2, annual` emits the first schedule entry's
`remainingPrincipal` as the raw `0.001`, which is not a 2-decimal rounding of
anything (its claimed rounded value is `0`); (2) the engine's rounding of
`-0.0000005` to 6 places yields `0` (ties toward positive infinity), not the
`-0.000001` required by round-half-away-from-zero. -/
theorem calculate_rounding_counterexample :
    (calculate ⟨1 / 1000, 0, 1 / 1000, 2, .annual⟩).map
        (fun res => res.cashFlowSchedule.map (fun cf => cf.remainingPrincipal))
      = .ok [1 / 1000, 0] ∧
      specRound (1 / 1000) 2 = 0 ∧ (1 / 1000 : ℚ) ≠ 0 ∧
      round (-1 / 2000000) 6 = 0 ∧
      specRound (-1 / 2000000) 6 = -1 / 1000000 ∧
      (0 : ℚ) ≠ -1 / 1000000 := by
  refine ⟨?_, ?_, by norm_num, ?_, ?_, by norm_num⟩
  · with_unfolding_all decide
  · with_unfolding_all decide
  · with_unfolding_all decide
  · unfold specRound
    dsimp only
    rw [if_pos (by norm_num : (-1 / 2000000 : ℚ) < 0)]
    have h : (-(-1 / 2000000 : ℚ) * 10 ^ 6 + 1 / 2) = 1 := by norm_num
    rw [h, Int.floor_one]
    norm_num

/-- C3, amended theorem.  Every numeric value emitted by `calculate` is
produced as the final step by the `Math.round`-based rule
`round(x, k) = ⌊x·10^k + 1/2⌋ / 10^k` (round-half-toward-positive-infinity,
which agrees with round-half-away-from-zero on non-negative values but not at
negative ties): `currentYield` and `ytm` to 6 decimals; `totalInterest` and
the schedule's `couponPayment`, `principalPayment`, `totalPayment` and
`cumulativeInterest` to 2 decimals — with the exception of
`remainingPrincipal`, which is emitted unrounded as exactly `0` (final
period) or the raw `faceValue` (otherwise). -/
theorem calculate_rounding_policy (dto : CalculateBondDto) (res : BondResult)
    (h : calculate dto = .ok res) :
    res.currentYield
        = round (calculateCurrentYield dto.faceValue dto.couponRate dto.marketPrice) 6 ∧
      (∀ y, calculateYTM dto.faceValue (couponPaymentOf dto) dto.marketPrice
          (totalPeriodsOf dto) (periodsPerYearOf dto) = .ok y → res.ytm = round y 6) ∧
      res.totalInterest = round (couponPaymentOf dto * totalPeriodsOf dto) 2 ∧
      (∀ cf ∈ res.cashFlowSchedule,
        cf.couponPayment = round (couponPaymentOf dto) 2 ∧
        cf.principalPayment =
          round (if (cf.period : ℚ) = totalPeriodsOf dto then dto.faceValue else 0) 2 ∧
        cf.totalPayment =
          round (couponPaymentOf dto
            + (if (cf.period : ℚ) = totalPeriodsOf dto then dto.faceValue else 0)) 2 ∧
        cf.cumulativeInterest = round (couponPaymentOf dto * (cf.period : ℚ)) 2 ∧
        cf.remainingPrincipal =
          (if (cf.period : ℚ) = totalPeriodsOf dto then 0 else dto.faceValue)) ∧
      (∀ x : ℚ, 0 ≤ x → ∀ k : ℕ, round x k = specRound x k) := by
  obtain ⟨y, hy, rfl⟩ := calculate_ok_inv dto res h
  refine ⟨rfl, ?_, rfl, ?_, fun x hx k => round_eq_specRound_of_nonneg x hx k⟩
  · intro y2 hy2
    rw [hy] at hy2
    obtain rfl : y = y2 := by simpa using hy2
    rfl
  · intro cf hcf
    rw [generateCashFlowSchedule_eq_map] at hcf
    obtain ⟨i, _, rfl⟩ := List.mem_map.mp hcf
    unfold scheduleEntry
    dsimp only
    have hcast : couponPaymentOf dto * (((1 + i : ℕ)) : ℚ)
        = couponPaymentOf dto * ((i : ℚ) + 1) := by push_cast; ring
    exact ⟨rfl, rfl, rfl, by rw [hcast], rfl⟩

set_option maxRecDepth 1000000 in
/-- C3, witness: a concrete successful run instantiating the rounding policy. -/
theorem calculate_rounding_policy_witness :
    calculate witnessDto = .ok witnessRes ∧
      (witnessRes.currentYield
          = round (calculateCurrentYield witnessDto.faceValue witnessDto.couponRate
              witnessDto.marketPrice) 6 ∧
        (∀ y, calculateYTM witnessDto.faceValue (couponPaymentOf witnessDto)
            witnessDto.marketPrice (totalPeriodsOf witnessDto) (periodsPerYearOf witnessDto)
            = .ok y → witnessRes.ytm = round y 6) ∧
        witnessRes.totalInterest
          = round (couponPaymentOf witnessDto * totalPeriodsOf witnessDto) 2 ∧
        (∀ cf ∈ witnessRes.cashFlowSchedule,
          cf.couponPayment = round (couponPaymentOf witnessDto) 2 ∧
          cf.principalPayment =
            round (if (cf.period : ℚ) = totalPeriodsOf witnessDto
              then witnessDto.faceValue else 0) 2 ∧
          cf.totalPayment =
            round (couponPaymentOf witnessDto
              + (if (cf.period : ℚ) = totalPeriodsOf witnessDto
                then witnessDto.faceValue else 0)) 2 ∧
          cf.cumulativeInterest = round (couponPaymentOf witnessDto * (cf.period : ℚ)) 2 ∧
          cf.remainingPrincipal =
            (if (cf.period : ℚ) = totalPeriodsOf witnessDto then 0
              else witnessDto.faceValue)) ∧
        (∀ x : ℚ, 0 ≤ x → ∀ k : ℕ, round x k = specRound x k)) := by
  have h : calculate witnessDto = .ok witnessRes := by with_unfolding_all decide
  exact ⟨h, calculate_rounding_policy witnessDto witnessRes h⟩

set_option maxRecDepth 1000000 in
/-- C8, counterexample.  Two valid inputs agreeing on `faceValue = 1000`,
`couponRate = 6` (so `couponPayment = 60`), `yearsToMaturity = 1`, annual
frequency, with `marketPrice` values `1001.1389587 < 1001.1389588` chosen on
the two sides of a tolerance-acceptance boundary: the run for the smaller
price stops one Newton step earlier, inside the `1e-6` acceptance band but
farther from the root, and returns a strictly *smaller* ytm — refuting strict
antitonicity of `calculateYTM` in `marketPrice`. -/
theorem ytm_monotonicity_counterexample :
    (10011389587 / 10000000 : ℚ) < 10011389588 / 10000000 ∧
      (calculateYTM 1000 60 (10011389587 / 10000000) 1 1).isOk = true ∧
      (calculateYTM 1000 60 (10011389588 / 10000000) 1 1).isOk = true ∧
      ¬((calculateYTM 1000 60 (10011389588 / 10000000) 1 1).toOption.getD 0
          < (calculateYTM 1000 60 (10011389587 / 10000000) 1 1).toOption.getD 0) := by
  refine ⟨by norm_num, ?_, ?_, ?_⟩ <;> with_unfolding_all decide

/-- C8, amended theorem.  What is strictly antitone in `marketPrice` is the
solver's initial guess (the closed-form approximation): holding `faceValue`,
`couponPayment`, period count and frequency fixed, a strictly smaller market
price gives a strictly larger starting rate.  The final returned ytm is not
strictly antitone in `marketPrice` (see the counterexample): tolerance-band
acceptance can return a rate up to the band width below the exact root,
which breaks strict monotonicity for sufficiently close prices. -/
theorem initialGuess_strictAnti (f C m : ℚ) (n : ℕ) (hf : 0 < f) (hC : 0 ≤ C)
    (hn : 1 ≤ n) (hm : m = 1 ∨ m = 2) (P1 P2 : ℚ) (h1 : 0 < P1) (h12 : P1 < P2) :
    initialGuess f C P2 (n : ℚ) m < initialGuess f C P1 (n : ℚ) m := by
  have hm0 : (0 : ℚ) < m := by rcases hm with h | h <;> rw [h] <;> norm_num
  have hnq : (0 : ℚ) < (n : ℚ) := by exact_mod_cast Nat.lt_of_lt_of_le Nat.zero_lt_one hn
  have hnq0 : ((n : ℚ)) ≠ 0 := ne_of_gt hnq
  have h2 : 0 < P2 := lt_trans h1 h12
  have hD1 : (0 : ℚ) < (f + P1) / 2 * m := by positivity
  have hD2 : (0 : ℚ) < (f + P2) / 2 * m := by positivity
  unfold initialGuess
  rw [div_div, div_div, div_div_eq_mul_div, div_div_eq_mul_div, div_lt_div_iff hD2 hD1]
  have hkey : (C * m + (f - P1) * m / (n : ℚ)) * ((f + P2) / 2 * m)
      - (C * m + (f - P2) * m / (n : ℚ)) * ((f + P1) / 2 * m)
      = (P2 - P1) * (m * m) * (C / 2 + f / (n : ℚ)) := by
    field_simp
    ring
  have hpos : 0 < (P2 - P1) * (m * m) * (C / 2 + f / (n : ℚ)) := by
    have ha : 0 < P2 - P1 := sub_pos.mpr h12
    have hb : 0 < f / (n : ℚ) := div_pos hf hnq
    have hc : 0 < C / 2 + f / (n : ℚ) := by linarith
    positivity
  linarith

/-- C8, witness: the initial guess at price 900 strictly exceeds the initial
guess at price 1000 for the standard 10-period annual bond. -/
theorem initialGuess_strictAnti_witness :
    ((0 : ℚ) < 1000 ∧ (0 : ℚ) ≤ 50 ∧ (1 : ℕ) ≤ 10 ∧ ((1 : ℚ) = 1 ∨ (1 : ℚ) = 2) ∧
        (0 : ℚ) < 900 ∧ (900 : ℚ) < 1000) ∧
      initialGuess 1000 50 1000 ((10 : ℕ) : ℚ) 1 < initialGuess 1000 50 900 ((10 : ℕ) : ℚ) 1 :=
  ⟨⟨by norm_num, by norm_num, by norm_num, Or.inl rfl, by norm_num, by norm_num⟩,
    initialGuess_strictAnti 1000 50 1 10 (by norm_num) (by norm_num) (by norm_num)
      (Or.inl rfl) 900 1000 (by norm_num) (by norm_num)⟩

end BondCalc
